import Mathlib

/-!
Verification of the BAKE prompt-optimization pipeline.

This file gives a shallow embedding, in Lean, of the core of the repository:

* `src/utils/text_tools.py` — `to_float_maybe`, `extract_choice`,
  `validate_answer`, `extract_tags`;
* `src/core/bake_engine.py` — `BakeEngine.evaluate_parallel`,
  `BakeEngine.refine`, `BakeEngine.extract_rule`, `BakeEngine.combine_rules`,
  `BakeEngine._generate_prompts_from_rule`, and the per-sample body of
  `BakeEngine.run`.

Modelling conventions:

* Python floats are modelled as exact rationals (`Rat`).  All numeric
  comparisons performed by the code (`abs(a-b) < 1e-6` on values parsed from
  short decimal strings) are far from the binary64 rounding granularity, so
  the rational model agrees with the float semantics on every input appearing
  in a theorem below.
* The scoring collaborator (`scorer.chat`) may raise; it is modelled as a
  function `String → Nat → Option String` from the full input and the attempt
  index to an optional raw output, `none` standing for a raised exception.
  The generation collaborator (`optimizer.chat`) is modelled as a total
  function `String → String → String`.
* `ThreadPoolExecutor`/`as_completed` aggregate worker results in
  nondeterministic completion order; the embedding aggregates in submission
  order.  Every property proved about `evaluate_parallel` below (membership,
  sizes, key sets) is invariant under permuting the completion order.
* Python `dict` assignment is modelled on association lists by `dictSet`,
  which overwrites an existing key and otherwise appends.
* String-formatting (`str.format`) is modelled as placeholder substitution;
  the `except` fallbacks that catch `KeyError`/`IndexError` from malformed
  *templates* are unreachable in this model (templates are opaque
  parameters).  File/console logging statements are omitted, as they do not
  affect any returned value.
* Character classes (`\d`, `\w`, `\s`, `str.lower`, `str.strip`) are the
  ASCII ones; every concrete input below is ASCII.
-/

namespace Bake

/-- The brace characters, kept out of string literals. -/
def lbrace : Char := Char.ofNat 123

def rbrace : Char := Char.ofNat 125

def squoteChar : Char := Char.ofNat 39

/-- Lowercase a whole string, as Python `str.lower`. -/
def lowerStr (s : String) : String := String.mk (s.data.map Char.toLower)

/-- Uppercase a whole string, as Python `str.upper`. -/
def upperStr (s : String) : String := String.mk (s.data.map Char.toUpper)

/-- Trim whitespace from both ends of a character list (Python `str.strip`
applied to an exploded string). -/
def trimChars (cs : List Char) : List Char :=
  ((cs.dropWhile Char.isWhitespace).reverse.dropWhile Char.isWhitespace).reverse

/-! Structural character-list versions of the string operations the code
uses (`strip`, `len`, slicing, `startswith`, `replace`, `split`, `join`).
They are used instead of the corresponding `String` library functions so
that every definition in this file evaluates by kernel reduction. -/

/-- Python `str.strip()`. -/
def pyStrip (s : String) : String := String.mk (trimChars s.data)

/-- Python `len` on a string (code points). -/
def strLen (s : String) : Nat := s.data.length

/-- Python slicing `s[:n]`. -/
def strTake (s : String) (n : Nat) : String := String.mk (s.data.take n)

/-- Python `s.startswith(pre)`. -/
def strStartsWith (s pre : String) : Bool := pre.data.isPrefixOf s.data

/-- Non-overlapping left-to-right replacement, as Python `str.replace`,
driven by fuel (each step consumes at least one character). -/
def replaceListAux (pat rep : List Char) : Nat → List Char → List Char
  | 0, cs => cs
  | _, [] => []
  | fuel + 1, c :: cs =>
    if !pat.isEmpty && pat.isPrefixOf (c :: cs) then
      rep ++ replaceListAux pat rep fuel ((c :: cs).drop pat.length)
    else c :: replaceListAux pat rep fuel cs

/-- Python `s.replace(pat, rep)`. -/
def strReplace (s pat rep : String) : String :=
  String.mk (replaceListAux pat.data rep.data s.data.length s.data)

/-- Python `s.split(sep)` for a one-character separator. -/
def splitOnChar (sep : Char) : List Char → List (List Char)
  | [] => [[]]
  | c :: cs =>
    if c = sep then [] :: splitOnChar sep cs
    else
      match splitOnChar sep cs with
      | [] => [[c]]
      | h :: t => (c :: h) :: t

/-- Python `sep.join(xs)`. -/
def strJoin (sep : String) : List String → String
  | [] => ""
  | [x] => x
  | x :: y :: t => x ++ sep ++ strJoin sep (y :: t)

/-! ### `text_tools.to_float_maybe`

Source (src/utils/text_tools.py, lines 4-8):

    def to_float_maybe(s: str) -> float:
        if not s: raise ValueError
        matches = re.findall(r'-?\d+\.?\d*', s.replace(',', ''))
        if matches: return float(matches[-1])
        raise ValueError

The regex `-?\d+\.?\d*` is embedded directly: at a given position it matches
an optional minus sign, a maximal nonempty digit run, an optional dot, and a
maximal (possibly empty) digit run; `re.findall` scans positions left to
right, taking each (greedy) match and resuming after it. -/

/-- Match `\d+\.?\d*` at the head of `cs`; returns the matched characters.
The match consumes exactly the returned characters. -/
def unsignedTokenAt (cs : List Char) : Option (List Char) :=
  let ds := cs.takeWhile Char.isDigit
  if ds.isEmpty then none
  else
    match cs.dropWhile Char.isDigit with
    | '.' :: rest2 => some (ds ++ '.' :: rest2.takeWhile Char.isDigit)
    | _ => some ds

/-- Match `-?\d+\.?\d*` at the head of `cs`; returns the matched characters. -/
def numTokenAt (cs : List Char) : Option (List Char) :=
  match cs with
  | '-' :: rest => (unsignedTokenAt rest).map (fun m => '-' :: m)
  | _ => unsignedTokenAt cs

/-- `re.findall` with the number regex, driven by fuel: every
(non-overlapping, greedy) number token in order of occurrence.  After a
match the scan resumes right after the matched characters; after a failed
position it advances by one.  Each recursive call strictly shrinks the text
(a matched token is nonempty), so fuel `cs.length` in `findNumTokens` never
runs out before the text does. -/
def findNumTokensAux : Nat → List Char → List (List Char)
  | 0, _ => []
  | _, [] => []
  | fuel + 1, c :: cs =>
    match numTokenAt (c :: cs) with
    | some m => m :: findNumTokensAux fuel ((c :: cs).drop m.length)
    | none => findNumTokensAux fuel cs

def findNumTokens (cs : List Char) : List (List Char) :=
  findNumTokensAux cs.length cs

/-- Digit run to a natural number. -/
def digitsToNat (cs : List Char) : Nat :=
  cs.foldl (fun a c => a * 10 + (c.toNat - ('0').toNat)) 0

/-- Numerator of a token matched by `\d+\.?\d*`: for `ii.ff` the integer
`ii * 10 ^ |ff| + ff`. -/
def unsignedNumerator (cs : List Char) : Nat :=
  let intPart := cs.takeWhile Char.isDigit
  let fracPart :=
    match cs.dropWhile Char.isDigit with
    | '.' :: fs => fs
    | _ => []
  digitsToNat intPart * 10 ^ fracPart.length + digitsToNat fracPart

/-- Denominator of a token matched by `\d+\.?\d*`: `10 ^ |ff|`. -/
def unsignedDenominator (cs : List Char) : Nat :=
  let fracPart :=
    match cs.dropWhile Char.isDigit with
    | '.' :: fs => fs
    | _ => []
  10 ^ fracPart.length

/-- Value of a token matched by `-?\d+\.?\d*`, as an exact rational (the
decimal literal `ii.ff` denotes exactly `(ii*10^k + ff) / 10^k`).  Built
with `mkRat` on integer arithmetic so that it evaluates by kernel
reduction. -/
def parseNumToken (cs : List Char) : Rat :=
  match cs with
  | '-' :: rest => mkRat (-(unsignedNumerator rest : Int)) (unsignedDenominator rest)
  | _ => mkRat (unsignedNumerator cs) (unsignedDenominator cs)

/-- `text_tools.to_float_maybe`.  `none` models a raised `ValueError`. -/
def to_float_maybe (s : String) : Option Rat :=
  if s = "" then none
  else
    match (findNumTokens (s.data.filter (fun c => c ≠ ','))).getLast? with
    | some tok => some (parseNumToken tok)
    | none => none

/-! ### `text_tools.extract_choice`

Source (src/utils/text_tools.py, lines 10-68).  The layered strategy:

1. `re.search(r'\\boxed\{\s*([A-E])\s*\}', text, IGNORECASE)` on the stripped
   text takes precedence;
2. the first keyword of `['answer is', 'answer:', 'the answer is',
   'correct answer is', 'option:', 'choice:']` contained in the lowercased
   text restricts the search region to the stripped text after the *last*
   occurrence of that keyword (`rsplit(pat, 1)[-1].strip()`);
3. `re.findall(r'\(([A-E])\)')` on the region: first match if a keyword was
   found, last match otherwise; else `re.findall(r'\b([A-E])\b')` likewise;
4. fallback: if the stripped original is shorter than 10 characters,
   `re.search(r'([A-E])', s, IGNORECASE)` on the raw input;
5. otherwise a `ValueError` is raised (modelled as `none`). -/

/-- A letter `A`-`E`, either case (the regex class `[A-E]` under
`re.IGNORECASE`). -/
def isChoiceLetter (c : Char) : Bool :=
  ('A' ≤ c && c ≤ 'E') || ('a' ≤ c && c ≤ 'e')

/-- Python's `\w` word character (ASCII). -/
def isWordChar (c : Char) : Bool := c.isAlphanum || c = '_'

/-- Match of `\(([A-E])\)` starting at position `i`: the captured letter. -/
def parenLetterAt (cs : List Char) (i : Nat) : Option Char :=
  match cs.drop i with
  | '(' :: l :: ')' :: _ => if isChoiceLetter l then some l else none
  | _ => none

/-- Match of `\b([A-E])\b` at position `i`: a choice letter whose neighbours
are not word characters (string boundaries count as non-word). -/
def wordLetterAt (cs : List Char) (i : Nat) : Option Char :=
  match cs.drop i with
  | l :: rest =>
    if isChoiceLetter l
        && (decide (i = 0) || !isWordChar (cs.getD (i - 1) ' '))
        && (match rest with | [] => true | r :: _ => !isWordChar r)
    then some l else none
  | [] => none

/-- All captures of `re.findall(r'\(([A-E])\)', ·)` in order.  The matches
are three characters long and can never overlap, so position-wise collection
coincides with `re.findall`. -/
def parenMatches (cs : List Char) : List Char :=
  (List.range cs.length).filterMap (parenLetterAt cs)

/-- All captures of `re.findall(r'\b([A-E])\b', ·)` in order (single-character
matches, so position-wise collection coincides with `re.findall`). -/
def wordMatches (cs : List Char) : List Char :=
  (List.range cs.length).filterMap (wordLetterAt cs)

/-- Match of `\\boxed\{\s*([A-E])\s*\}` (IGNORECASE) at the head of `cs`.
`\s*` and `[A-E]`, and `\s*` and the closing brace, match disjoint character
sets, so the greedy scan needs no backtracking. -/
def boxedAt (cs : List Char) : Option Char :=
  match cs with
  | '\\' :: rest =>
    if (rest.take 5).map Char.toLower = ['b', 'o', 'x', 'e', 'd'] then
      match rest.drop 5 with
      | b :: rest2 =>
        if b = lbrace then
          match rest2.dropWhile Char.isWhitespace with
          | l :: rest3 =>
            if isChoiceLetter l then
              match rest3.dropWhile Char.isWhitespace with
              | b2 :: _ => if b2 = rbrace then some l else none
              | [] => none
            else none
          | [] => none
        else none
      | [] => none
    else none
  | _ => none

/-- `re.search` with the boxed pattern: the first position admitting a match. -/
def boxedChoice (cs : List Char) : Option Char :=
  ((List.range cs.length).filterMap (fun i => boxedAt (cs.drop i))).head?

/-- The keyword list of `extract_choice`, in source order. -/
def choiceKeywords : List (List Char) :=
  [("answer is").data, ("answer:").data, ("the answer is").data,
   ("correct answer is").data, ("option:").data, ("choice:").data]

/-- All positions at which `pat` occurs in `hay`. -/
def subPositions (hay pat : List Char) : List Nat :=
  (List.range (hay.length + 1)).filter (fun i => pat.isPrefixOf (hay.drop i))

/-- Python's `pat in hay` substring test. -/
def containsSub (hay pat : List Char) : Bool :=
  !(subPositions hay pat).isEmpty

/-- Python's `hay.rsplit(pat, 1)[-1]`: the text after the last occurrence of
`pat` (the whole of `hay` if `pat` does not occur). -/
def afterLast (hay pat : List Char) : List Char :=
  match (subPositions hay pat).getLast? with
  | some i => hay.drop (i + pat.length)
  | none => hay

/-- The keyword-splitting step of `extract_choice` on the lowercased text:
returns the search region and the `found_keyword` flag. -/
def keywordRegion (tl : List Char) : List Char × Bool :=
  match choiceKeywords.find? (fun k => containsSub tl k) with
  | some k => (trimChars (afterLast tl k), true)
  | none => (tl, false)

/-- Steps 4.1-4.2 of `extract_choice`: parenthesized options take priority;
first match when a keyword anchored the region, last match otherwise. -/
def pickOption (region : List Char) (foundKeyword : Bool) : Option Char :=
  let mp := parenMatches region
  if !mp.isEmpty then (if foundKeyword then mp.head? else mp.getLast?)
  else
    let mw := wordMatches region
    if !mw.isEmpty then (if foundKeyword then mw.head? else mw.getLast?)
    else none

/-- `text_tools.extract_choice`.  `none` models a raised `ValueError`. -/
def extract_choice (s : String) : Option String :=
  if s = "" then none
  else
    let text := pyStrip s
    match boxedChoice text.data with
    | some c => some (String.mk [c.toUpper])
    | none =>
      let pr := keywordRegion (text.data.map Char.toLower)
      match pickOption pr.1 pr.2 with
      | some c => some (String.mk [c.toUpper])
      | none =>
        if strLen (pyStrip s) < 10 then
          (s.data.find? isChoiceLetter).map (fun c => String.mk [c.toUpper])
        else none

/-! ### `text_tools.validate_answer`

Source (src/utils/text_tools.py, lines 70-86).  The `try`/`except
ValueError` wrapper is modelled by the `Option` results of the two parsers:
every raised `ValueError` surfaces as `none` and is mapped to `false`.  The
only exception the body can raise is `ValueError`, so the model is total. -/

/-- The float comparison `abs(a - b) < 1e-6`, written on the integer
numerators and denominators (`|a - b| < 1/1000000` iff
`1000000 * |a.num * b.den - b.num * a.den| < a.den * b.den`) so that it
evaluates by kernel reduction; `ratAbsLtEps_iff` below proves the
equivalence with the absolute-value form. -/
def ratAbsLtEps (a b : Rat) : Bool :=
  decide ((a.num * (b.den : Int) - b.num * (a.den : Int)).natAbs * 1000000
    < a.den * b.den)

def validate_answer (prediction ground_truth task_type : String) : Bool :=
  let gt := pyStrip ground_truth
  if task_type = "math" then
    match to_float_maybe prediction, to_float_maybe gt with
    | some a, some b => ratAbsLtEps a b
    | _, _ => false
  else if task_type = "multiple_choice" then
    match extract_choice prediction with
    | some c => c == upperStr gt
    | none => false
  else
    pyStrip prediction == gt

/-- Modelled from the spec (§4.1, claim C5): with no keyword present, "search
the whole text and take the last lettered option".  A lettered-option
occurrence is a parenthesized letter or a standalone letter with word
boundaries, ordered by position in the text.  This definition follows the
spec wording and is compared against the source-derived `extract_choice`. -/
def spec_last_lettered_option (tl : List Char) : Option Char :=
  ((List.range tl.length).filterMap (fun i =>
    match parenLetterAt tl i with
    | some l => some l
    | none => wordLetterAt tl i)).getLast?

/-! ### `text_tools.extract_tags`

Source (src/utils/text_tools.py, lines 88-100): strict pattern
`<{tag}_BEGIN>(.*?)</{tag}_END>` with `re.DOTALL | re.IGNORECASE`; if it
yields nothing, the loose pattern `<{tag}[ _]BEGIN>(.*?)</{tag}[ _]END>` is
tried; all captures are stripped.  The non-greedy body means: from each open
tag, capture up to the *earliest* close tag and resume scanning after it; an
open tag with no close yields no match and the scan advances one character. -/

/-- Case-insensitive prefix test (`re.IGNORECASE` on literal pattern text). -/
def ciIsPrefixOf (pat cs : List Char) : Bool :=
  (pat.map Char.toLower).isPrefixOf (cs.map Char.toLower)

def strictOpenTags (tag : String) : List (List Char) :=
  ['<' :: tag.data ++ ("_BEGIN>").data]

def strictCloseTags (tag : String) : List (List Char) :=
  [("</").data ++ tag.data ++ ("_END>").data]

def looseOpenTags (tag : String) : List (List Char) :=
  ['<' :: tag.data ++ ' ' :: ("BEGIN>").data, '<' :: tag.data ++ '_' :: ("BEGIN>").data]

def looseCloseTags (tag : String) : List (List Char) :=
  [("</").data ++ tag.data ++ ' ' :: ("END>").data, ("</").data ++ tag.data ++ '_' :: ("END>").data]

/-- If one of the open-tag alternatives matches at the head, its length. -/
def openMatchAt (opens : List (List Char)) (cs : List Char) : Option Nat :=
  (opens.find? (fun p => ciIsPrefixOf p cs)).map List.length

/-- Earliest position where a close-tag alternative matches: returns the
captured body before it and the remaining text after it. -/
def closeSplit (closes : List (List Char)) (cs : List Char) : Option (List Char × List Char) :=
  ((List.range (cs.length + 1)).filterMap (fun i =>
    (closes.find? (fun p => ciIsPrefixOf p (cs.drop i))).map
      (fun p => (cs.take i, cs.drop (i + p.length))))).head?

/-- The scan of `re.findall` for the tag pattern.  The fuel argument starts
at the text length; each recursive call strictly shrinks the text (tags are
nonempty), so the fuel never runs out before the text does. -/
def findTagBlocksAux (opens closes : List (List Char)) : Nat → List Char → List (List Char)
  | 0, _ => []
  | _, [] => []
  | fuel + 1, c :: rest =>
    match openMatchAt opens (c :: rest) with
    | some olen =>
      match closeSplit closes ((c :: rest).drop olen) with
      | some (body, after) => body :: findTagBlocksAux opens closes fuel after
      | none => findTagBlocksAux opens closes fuel rest
    | none => findTagBlocksAux opens closes fuel rest

def findTagBlocks (opens closes : List (List Char)) (cs : List Char) : List (List Char) :=
  findTagBlocksAux opens closes cs.length cs

/-- `text_tools.extract_tags`. -/
def extract_tags (text : String) (tag_name : String) : List String :=
  if text = "" then []
  else
    let strict := findTagBlocks (strictOpenTags tag_name) (strictCloseTags tag_name) text.data
    let ms :=
      if strict.isEmpty then
        findTagBlocks (looseOpenTags tag_name) (looseCloseTags tag_name) text.data
      else strict
    ms.map (fun cs => pyStrip (String.mk cs))

/-! ### `BakeEngine.evaluate_parallel`

Source (src/core/bake_engine.py, lines 22-60).  The worker retries the
scorer call up to `max_retries` times, returning `(is_correct, raw)` from the
first attempt that does not raise, or no result when every attempt raised;
the aggregation loop skips no-result workers (`if is_correct is None:
continue`), otherwise records the outcome in `detailed_res` and appends the
prompt to `correct` or to `wrong` (saving the raw output in
`failed_outputs`). -/

structure EvalResult where
  correct : List String
  wrong : List String
  detailed_res : List (String × Bool)
  failed_outputs : List (String × String)
deriving DecidableEq

/-- Python `dict` assignment `d[k] = v` on an association list: overwrite the
existing key in place, or append a new entry. -/
def dictSet {α : Type} (d : List (String × α)) (k : String) (v : α) : List (String × α) :=
  if d.any (fun kv => kv.1 == k) then
    d.map (fun kv => if kv.1 == k then (k, v) else kv)
  else d ++ [(k, v)]

/-- The `for _ in range(max_retries)` loop of `_worker`: first argument is
the remaining attempts, second the index of the current attempt. -/
def workerLoop (scorer : String → Nat → Option String) (full_input answer_gt task_type : String) :
    Nat → Nat → Option (Bool × String)
  | 0, _ => none
  | n + 1, attempt =>
    match scorer full_input attempt with
    | some raw => some (validate_answer raw answer_gt task_type, raw)
    | none => workerLoop scorer full_input answer_gt task_type n (attempt + 1)

/-- `_worker` (src/core/bake_engine.py, lines 27-43): `none` models the
`(p, None, None)` no-result return after exhausting retries. -/
def worker (scorer : String → Nat → Option String) (max_retries : Nat)
    (query answer_gt task_type : String) (p : String) : Option (Bool × String) :=
  workerLoop scorer (p ++ "\n\n" ++ query) answer_gt task_type max_retries 0

/-- One iteration of the aggregation loop over completed futures. -/
def evalStep (outc : String → Option (Bool × String)) (acc : EvalResult) (p : String) :
    EvalResult :=
  match outc p with
  | none => acc
  | some (is_correct, raw) =>
    let detailed := dictSet acc.detailed_res p is_correct
    if is_correct then
      ⟨acc.correct ++ [p], acc.wrong, detailed, acc.failed_outputs⟩
    else
      ⟨acc.correct, acc.wrong ++ [p], detailed, dictSet acc.failed_outputs p raw⟩

def evalLoop (outc : String → Option (Bool × String)) :
    List String → EvalResult → EvalResult
  | [], acc => acc
  | p :: ps, acc => evalLoop outc ps (evalStep outc acc p)

/-- `BakeEngine.evaluate_parallel`.  Results are aggregated in submission
order (see the header note on `as_completed`). -/
def evaluate_parallel (scorer : String → Nat → Option String) (max_retries : Nat)
    (query answer_gt : String) (prompts : List String) (task_type : String) : EvalResult :=
  evalLoop (worker scorer max_retries query answer_gt task_type) prompts ⟨[], [], [], []⟩

/-! ### `BakeEngine.refine` and the rule operations

Source (src/core/bake_engine.py, lines 62-173).  The meta-prompt templates
are opaque parameters; `str.format` is modelled as placeholder substitution
(`pyFormatKey`), and Python's f-string interpolation of a list of strings as
`pyListRepr`. -/

structure MetaPrompts where
  analyze_and_rewrite : String
  rule_summarization : String
  combine_rules : String
  prompt_generation : String

/-- `"... ".format(key=value)`: substitute the named placeholder. -/
def pyFormatKey (tpl key value : String) : String :=
  strReplace tpl (String.mk [lbrace] ++ key ++ String.mk [rbrace]) value

/-- Python `repr` of a list of strings, as produced by f-string
interpolation of `correct` (quote-escaping corner cases are irrelevant to
every theorem below: the value is opaque to the optimizer). -/
def pyListRepr (xs : List String) : String :=
  let sq := String.mk [squoteChar]
  ("[") ++ strJoin (", ") (xs.map (fun x => sq ++ x ++ sq)) ++ ("]")

/-- `dict.get(p, "")` on an association list. -/
def lookupD (d : List (String × String)) (k : String) (dflt : String) : String :=
  match d.find? (fun kv => kv.1 == k) with
  | some kv => kv.2
  | none => dflt

/-- The `error_block` built by `refine` (lines 67-75). -/
def refine_error_block (wrong : List String) (failed_outputs : List (String × String)) :
    String :=
  strJoin ("\n") (wrong.map (fun p =>
    let raw_out := lookupD failed_outputs p ("")
    let snippet := if strLen raw_out > 300 then strTake raw_out 300 ++ ("...") else raw_out
    ("<CASE>\nOriginal Prompt: ") ++ p ++ ("\nModel Output: ") ++ snippet ++ ("\n</CASE>")))

/-- The `user_msg` built by `refine` (lines 78-82). -/
def refine_user_msg (correct wrong : List String) (question answer_gt : String)
    (failed_outputs : List (String × String)) : String :=
  ("[TASK CONTEXT]\nQuestion: ") ++ question ++ ("\nGround Truth: ") ++ answer_gt
    ++ ("\n\n[FAILED PROMPTS & OUTPUTS]\n") ++ refine_error_block wrong failed_outputs
    ++ ("\n\n[SUCCESSFUL PROMPTS (REFERENCE)]\n") ++ pyListRepr correct

/-- `BakeEngine.refine` (lines 62-101).  The debug-file write on a failed
parse is omitted (I/O only); the pairing loop
`for i in range(min(len(wrong), len(improved)))` is embedded verbatim. -/
def refine (optimizer : String → String → String) (meta : MetaPrompts)
    (correct wrong : List String) (question answer_gt : String)
    (failed_outputs : List (String × String)) : List (String × String) :=
  if wrong.isEmpty then []
  else
    let sys_msg := pyFormatKey meta.analyze_and_rewrite ("num") (toString wrong.length)
    let response := optimizer sys_msg (refine_user_msg correct wrong question answer_gt
      failed_outputs)
    let improved := extract_tags response ("REWRITE")
    (List.range (min wrong.length improved.length)).map
      (fun i => (wrong.getD i (""), improved.getD i ("")))

/-- `BakeEngine.extract_rule` (lines 104-117).  The `except` fallback for a
template without the placeholder is unreachable under the substitution model
of `format` (see header). -/
def extract_rule (optimizer : String → String → String) (meta : MetaPrompts)
    (correct : List String) (pairs : List (String × String)) : String :=
  if pairs.isEmpty then ""
  else
    let pair_text := strJoin ("\n")
      (pairs.map (fun pr => ("Original: ") ++ pr.1 ++ ("\nImproved: ") ++ pr.2))
    let sys_msg := pyFormatKey meta.rule_summarization ("pairs_block") pair_text
    optimizer sys_msg (("Correct Prompts:\n") ++ pyListRepr correct)

/-- `BakeEngine.combine_rules` (lines 119-131). -/
def combine_rules (optimizer : String → String → String) (meta : MetaPrompts)
    (rules : List String) : String :=
  if rules.isEmpty then ""
  else
    let block := strJoin ("\n\n")
      ((List.range rules.length).map (fun i =>
        ("Rule ") ++ toString (i + 1) ++ (":\n") ++ rules.getD i ("")))
    let sys_msg := pyFormatKey meta.combine_rules ("rules_block") block
    optimizer sys_msg ("Please fill the template based on the rules above.")

/-- Python `s.strip(c)` for a single strip character. -/
def stripCharBoth (c : Char) (s : String) : String :=
  String.mk (((s.data.dropWhile (fun x => x = c)).reverse.dropWhile (fun x => x = c)).reverse)

/-- `line.strip('"').strip("'")`. -/
def stripQuotes (s : String) : String :=
  stripCharBoth squoteChar (stripCharBoth '"' s)

/-- The suffix after the first occurrence of `sep`, if any. -/
def afterFirstChar (sep : Char) : List Char → Option (List Char)
  | [] => none
  | c :: cs => if c = sep then some cs else afterFirstChar sep cs

/-- `line.split(sep, 1)[-1].strip()`. -/
def splitOnceTailTrim (sep : Char) (s : String) : String :=
  (match afterFirstChar sep s.data with
   | some r => String.mk r
   | none => s) |> pyStrip

/-- The numbering-removal step of `_generate_prompts_from_rule`
(lines 163-165). -/
def stripNumbering (s : String) : String :=
  splitOnceTailTrim ')' (splitOnceTailTrim '.' s)

/-- The line-cleaning loop of `_generate_prompts_from_rule` (lines 156-166).
`none` models the `IndexError` raised by `line[0]` when quote-stripping
empties a line; the enclosing `except` then discards everything. -/
def parsePromptLines : List String → Option (List String)
  | [] => some []
  | line0 :: rest =>
    let line := pyStrip line0
    if strLen line > 10 && !(strStartsWith (lowerStr line) ("here")) then
      match (stripQuotes line).data with
      | [] => none
      | c :: cs =>
        let l2 := if c.isDigit then stripNumbering (String.mk (c :: cs)) else String.mk (c :: cs)
        (parsePromptLines rest).map (fun ps => l2 :: ps)
    else parsePromptLines rest

/-- `BakeEngine._generate_prompts_from_rule` (lines 133-173). -/
def generate_prompts_from_rule (optimizer : String → String → String) (meta : MetaPrompts)
    (rule_text : String) (count : Nat) : List String :=
  if rule_text = "" then []
  else
    let sys_msg := pyFormatKey (pyFormatKey meta.prompt_generation ("rules_block") rule_text)
      ("num") (toString count)
    let user_msg := ("Please generate ") ++ toString count
      ++ (" new prompts based on the above rule now.")
    let raw := optimizer sys_msg user_msg
    match parsePromptLines ((splitOnChar (Char.ofNat 10) raw.data).map String.mk) with
    | some prompts => prompts.take count
    | none => []

/-! ### The per-sample body of `BakeEngine.run`

Source (src/core/bake_engine.py, lines 175-315).  `BakeEngine.run` owns
three pieces of mutable state threaded through the dataset loop:
`current_prompts` (the active pool), `attr` (tier-0 pending rules) and
`all_rule` (tier ≥ 1 merged rules).  All logging is omitted.

The `while len(all_rule) >= self.group_size` loop (lines 291-295) does not
terminate in the source when `group_size ≤ 1` and `all_rule` is nonempty;
`collapseRules` therefore carries the extra guard `2 ≤ group_size` and
agrees with the source whenever the source loop terminates. -/

structure Sample where
  question : String
  answer : String
  type : String
  source : String
deriving DecidableEq

structure Engine where
  scorer : String → Nat → Option String
  optimizer : String → String → String
  meta : MetaPrompts
  max_retries : Nat
  group_size : Nat

structure RunState where
  current_prompts : List String
  attr : List String
  all_rule : List String
deriving DecidableEq

/-- The recursive-merge loop (lines 291-295), driven by fuel: while
`group_size ≤ length`, replace the first `group_size` rules by their merge,
prepended.  Each iteration shortens the list by `group_size - 1 ≥ 1`, so fuel
`l.length` in `collapseRules` never runs out before the loop exits. -/
def collapseRulesAux (optimizer : String → String → String) (meta : MetaPrompts)
    (group_size : Nat) : Nat → List String → List String
  | 0, l => l
  | fuel + 1, l =>
    if 2 ≤ group_size ∧ group_size ≤ l.length then
      collapseRulesAux optimizer meta group_size fuel
        (combine_rules optimizer meta (l.take group_size) :: l.drop group_size)
    else l

def collapseRules (optimizer : String → String → String) (meta : MetaPrompts)
    (group_size : Nat) (l : List String) : List String :=
  collapseRulesAux optimizer meta group_size l.length l

/-- The verification step (lines 230-250): re-evaluate exactly the candidate
prompts on the same sample and keep the pairs whose candidate is in the
returned `correct` list. -/
def verifyPairs (eng : Engine) (q a t_type : String)
    (candidate_pairs : List (String × String)) : List (String × String) :=
  let new_prompts_to_test := candidate_pairs.map Prod.snd
  let res := evaluate_parallel eng.scorer eng.max_retries q a new_prompts_to_test t_type
  candidate_pairs.filter (fun pr => res.correct.contains pr.2)

/-- The body of the `for idx, item in enumerate(dataset)` loop of
`BakeEngine.run` (lines 198-295), as a state transformer.  Note that the
pool regeneration after a tier-1 merge (lines 274-287) is unconditional:
`run` never reads `config['bake']['iterative']`. -/
def processSample (eng : Engine) (st : RunState) (item : Sample) : RunState :=
  let q := item.question
  let a := item.answer
  let t_type := item.type
  let r1 := evaluate_parallel eng.scorer eng.max_retries q a st.current_prompts t_type
  if r1.wrong.isEmpty then st
  else
    let candidate_pairs := refine eng.optimizer eng.meta r1.correct r1.wrong q a
      r1.failed_outputs
    if candidate_pairs.isEmpty then st
    else
      let valid_pairs := verifyPairs eng q a t_type candidate_pairs
      if valid_pairs.isEmpty then st
      else
        let rule := extract_rule eng.optimizer eng.meta r1.correct valid_pairs
        let attr1 := if rule ≠ "" then st.attr ++ [rule] else st.attr
        let merged_state :=
          if eng.group_size ≤ attr1.length then
            let merged := combine_rules eng.optimizer eng.meta attr1
            let new_iterative_prompts := generate_prompts_from_rule eng.optimizer eng.meta
              merged 5
            (([] : List String), st.all_rule ++ [merged],
              if new_iterative_prompts.isEmpty then st.current_prompts
              else new_iterative_prompts)
          else (attr1, st.all_rule, st.current_prompts)
        { current_prompts := merged_state.2.2,
          attr := merged_state.1,
          all_rule := collapseRules eng.optimizer eng.meta eng.group_size merged_state.2.1 }

/-- The dataset loop of `BakeEngine.run`, from the initial state
`current_prompts = initial_prompts.copy(), attr = [], all_rule = []`. -/
def runLoop (eng : Engine) (initial_prompts : List String) (dataset : List Sample) : RunState :=
  dataset.foldl (processSample eng) ⟨initial_prompts, [], []⟩

/-! ### Concrete collaborators for closed evaluations

A deterministic scorer/optimizer pair driving `processSample` end to end:
`P1` answers wrongly on `Q1`/`Q2`, every other prompt answers `4`; the
optimizer answers each of the four (distinct, single-letter) meta-prompt
templates with a fixed response. -/

def demoMeta : MetaPrompts := ⟨"A", "S", "C", "G"⟩

def demoScorer (full_input : String) (attempt : Nat) : Option String :=
  if full_input = "P1\n\nQ1" || full_input = "P1\n\nQ2" then some ("5") else some ("4")

def demoOptimizer (sys_msg user_msg : String) : String :=
  if sys_msg = "A" then "<REWRITE_BEGIN>PX</REWRITE_END>"
  else if sys_msg = "S" then "R"
  else if sys_msg = "C" then "M"
  else if sys_msg = "G" then "This is a long prompt line"
  else ""

def demoEngine : Engine := ⟨demoScorer, demoOptimizer, demoMeta, 1, 2⟩

def demoSample1 : Sample := ⟨"Q1", "4", "math", "demo"⟩

def demoSample2 : Sample := ⟨"Q2", "4", "math", "demo"⟩

/-- A scorer that always raises (every attempt fails). -/
def failScorer (full_input : String) (attempt : Nat) : Option String := none

/-- The demo engine with `group_size = 0` (a legal configuration value the
source never guards against). -/
def zeroEngine : Engine := ⟨demoScorer, demoOptimizer, demoMeta, 1, 0⟩

/-- A third sample on which the single demo prompt answers correctly. -/
def demoSample3 : Sample := ⟨"Q3", "4", "math", "demo"⟩

/-- The invariant maintained by the aggregation loop of
`evaluate_parallel`, relative to the per-prompt outcome function: prompts in
`correct`/`wrong` carry the corresponding outcome, `detailed_res` holds
exactly the classified prompts with their boolean, and `failed_outputs`
holds exactly the wrong prompts. -/
def EvalInv (outc : String → Option (Bool × String)) (r : EvalResult) : Prop :=
  (∀ p, p ∈ r.correct → ∃ raw, outc p = some (true, raw))
  ∧ (∀ p, p ∈ r.wrong → ∃ raw, outc p = some (false, raw))
  ∧ (∀ p b, (p, b) ∈ r.detailed_res ↔
      ((p ∈ r.correct ∧ b = true) ∨ (p ∈ r.wrong ∧ b = false)))
  ∧ (∀ p, (∃ o, (p, o) ∈ r.failed_outputs) ↔ p ∈ r.wrong)

end Bake
namespace Bake

theorem ratAbsLtEps_iff (a b : Rat) :
    ratAbsLtEps a b = true ↔ |a - b| < 1 / 1000000 := by
  rw [ratAbsLtEps, decide_eq_true_iff]
  have ha0 : (0 : ℚ) < (a.den : ℚ) := by exact_mod_cast a.den_pos
  have hb0 : (0 : ℚ) < (b.den : ℚ) := by exact_mod_cast b.den_pos
  have hD : (0 : ℚ) < ((a.den * b.den : ℕ) : ℚ) := by
    push_cast
    positivity
  have key : a - b
      = ((a.num * b.den - b.num * a.den : ℤ) : ℚ) / ((a.den * b.den : ℕ) : ℚ) := by
    conv_lhs => rw [← Rat.num_div_den a, ← Rat.num_div_den b]
    push_cast
    rw [div_sub_div _ _ (ne_of_gt ha0) (ne_of_gt hb0)]
    ring
  rw [key, abs_div, abs_of_pos hD,
    div_lt_div_iff₀ hD (by norm_num : (0 : ℚ) < 1000000), one_mul,
    ← Int.cast_abs, Int.abs_eq_natAbs]
  norm_cast

/-- Claim C6: math validation parses the last numeric token (commas
stripped) from both the model output and the (trimmed) ground truth; the
result is `true` iff both parses succeed and `|a - b| < 1e-6`; a parse
failure on either side yields `false`.  The three examples from the spec
hold. -/
theorem validate_math_spec :
    validate_answer ("The answer is 42") ("42") ("math") = true
    ∧ validate_answer ("approx 41.9999995") ("42") ("math") = true
    ∧ validate_answer ("forty-two") ("42") ("math") = false
    ∧ ∀ p g : String, (validate_answer p g ("math") = true ↔
        ∃ a b : Rat, to_float_maybe p = some a ∧ to_float_maybe (pyStrip g) = some b
          ∧ |a - b| < 1 / 1000000) := by
  refine ⟨by decide, by decide, by decide, ?_⟩
  intro p g
  unfold validate_answer
  rw [if_pos rfl]
  cases h1 : to_float_maybe p with
  | none => simp [h1]
  | some a =>
    cases h2 : to_float_maybe (pyStrip g) with
    | none => simp [h1, h2]
    | some b => simp [h1, h2, ratAbsLtEps_iff]

/-- Claim C7: `validate_answer` is total (a `Bool`-valued function of its
three string arguments in this model, so no exception can escape to the
caller) and maps every internal parse failure — no numeric token, no
extractable choice letter, empty input — to `false`. -/
theorem validate_answer_parse_failure_false (p g t : String) :
    (t = "math" → ((to_float_maybe p).isNone ∨ (to_float_maybe (pyStrip g)).isNone) →
        validate_answer p g t = false)
    ∧ (t = "multiple_choice" → (extract_choice p).isNone →
        validate_answer p g t = false)
    ∧ (p = "" → (t = "math" ∨ t = "multiple_choice") → validate_answer p g t = false) := by
  refine ⟨?_, ?_, ?_⟩
  · rintro rfl hfail
    unfold validate_answer
    rw [if_pos rfl]
    cases h1 : to_float_maybe p with
    | none => simp
    | some a =>
      cases h2 : to_float_maybe (pyStrip g) with
      | none => simp
      | some b =>
        rw [h1] at hfail
        rw [h2] at hfail
        simp at hfail
  · rintro rfl hfail
    unfold validate_answer
    rw [if_neg (by decide), if_pos rfl]
    cases h1 : extract_choice p with
    | none => simp
    | some c =>
      rw [h1] at hfail
      simp at hfail
  · rintro rfl ht
    rcases ht with rfl | rfl
    · unfold validate_answer
      rw [if_pos rfl]
      simp [to_float_maybe]
    · unfold validate_answer
      rw [if_neg (by decide), if_pos rfl]
      simp [extract_choice]

theorem validate_answer_parse_failure_false_witness :
    validate_answer ("forty-two") ("42") ("math") = false :=
  (validate_answer_parse_failure_false ("forty-two") ("42") ("math")).1 rfl
    (Or.inl (by decide))

end Bake
namespace Bake

/-- Claim C5 (counterexample): the claim states that with no keyword the
whole text is searched and the *last lettered option* is taken; but the code
gives parenthesized options priority over standalone letters, so on
`"(a) x b"` (no keyword, last lettered option `b`, matching the ground
truth) validation nevertheless fails, because the earlier `(a)` wins. -/
theorem extract_choice_last_option_counterexample :
    validate_answer ("(a) x b") ("b") ("multiple_choice") = false
    ∧ boxedChoice ((pyStrip ("(a) x b")).data) = none
    ∧ (keywordRegion (((pyStrip ("(a) x b")).data).map Char.toLower)).2 = false
    ∧ spec_last_lettered_option (((pyStrip ("(a) x b")).data).map Char.toLower) = some 'b'
    ∧ upperStr (pyStrip ("b")) = "B"
    ∧ extract_choice ("(a) x b") = some ("A") := by
  refine ⟨by decide, by decide, by decide, by decide, by decide, by decide⟩

/-- Claim C5 (amended): layered extraction for multiple choice.  A
`\boxed` marker takes precedence; otherwise, if a keyword occurs, only the
text after its last occurrence is searched, else the whole text; in either
region, parenthesized options `(A)`-`(E)` take precedence over standalone
letters, and within the selected class the first occurrence is taken when a
keyword anchored the region and the last occurrence otherwise; the extracted
letter is compared case-insensitively with the trimmed ground truth.  The
three examples from the spec hold. -/
theorem extract_choice_layered (s p g : String) (c : Char) :
    validate_answer ("I think the answer is (B) because...") ("B") ("multiple_choice") = true
    ∧ validate_answer ("A... B... actually C") ("C") ("multiple_choice") = true
    ∧ validate_answer ("") ("A") ("multiple_choice") = false
    ∧ (s ≠ "" → boxedChoice (pyStrip s).data = some c →
        extract_choice s = some (String.mk [c.toUpper]))
    ∧ (s ≠ "" → boxedChoice (pyStrip s).data = none →
        pickOption (keywordRegion ((pyStrip s).data.map Char.toLower)).1
            (keywordRegion ((pyStrip s).data.map Char.toLower)).2 = some c →
        extract_choice s = some (String.mk [c.toUpper]))
    ∧ (∀ region, parenMatches region ≠ [] →
        pickOption region true = (parenMatches region).head?
        ∧ pickOption region false = (parenMatches region).getLast?)
    ∧ (∀ region, parenMatches region = [] →
        pickOption region true = (wordMatches region).head?
        ∧ pickOption region false = (wordMatches region).getLast?)
    ∧ (validate_answer p g ("multiple_choice") = true ↔
        extract_choice p = some (upperStr (pyStrip g))) := by
  refine ⟨by decide, by decide, by decide, ?_, ?_, ?_, ?_, ?_⟩
  · intro hs hb
    unfold extract_choice
    rw [if_neg hs]
    simp only [hb]
  · intro hs hb hp
    unfold extract_choice
    rw [if_neg hs]
    simp only [hb, hp]
  · intro region hne
    have h1 : (parenMatches region).isEmpty = false := by
      cases hpm : parenMatches region with
      | nil => exact absurd hpm hne
      | cons x xs => rfl
    unfold pickOption
    simp [h1]
  · intro region hemp
    have h1 : (parenMatches region).isEmpty = true := by
      rw [hemp]
      rfl
    unfold pickOption
    by_cases hw : wordMatches region = []
    · simp [h1, hemp, hw]
    · have h2 : (wordMatches region).isEmpty = false := by
        cases hwm : wordMatches region with
        | nil => exact absurd hwm hw
        | cons x xs => rfl
      simp [h1, hemp, h2]
  · unfold validate_answer
    rw [if_neg (by decide), if_pos rfl]
    cases h1 : extract_choice p with
    | none => simp
    | some c2 => simp [beq_iff_eq]

theorem extract_choice_layered_witness :
    extract_choice ("e") = some (String.mk ['e'.toUpper]) :=
  (extract_choice_layered ("e") ("x") ("y") 'e').2.2.2.2.1 (by decide) (by decide)
    (by decide)

/-- Claim C9 (counterexample): the short-string fallback does not require
the input to consist of a single bare letter: on `"bcd"` (trimmed length
3 < 10, no boxed marker, no keyword, no parenthesized or standalone-letter
match) the fallback still extracts `B`, the first letter A-E occurring
anywhere in the string. -/
theorem extract_choice_fallback_counterexample :
    extract_choice ("bcd") = some ("B")
    ∧ strLen (pyStrip ("bcd")) < 10
    ∧ boxedChoice ((pyStrip ("bcd")).data) = none
    ∧ pickOption (keywordRegion (((pyStrip ("bcd")).data).map Char.toLower)).1
        (keywordRegion (((pyStrip ("bcd")).data).map Char.toLower)).2 = none
    ∧ strLen (pyStrip ("bcd")) ≠ 1
    ∧ validate_answer ("bcd") ("b") ("multiple_choice") = true := by
  refine ⟨by decide, by decide, by decide, by decide, by decide, by decide⟩

/-- Claim C9 (amended): when the layered strategy found no boxed marker and
no option in the (possibly keyword-anchored) search region, and the trimmed
original string is shorter than 10 characters, the fallback returns the
first occurrence of a letter A-E (either case) anywhere in the raw string —
and hence no choice exactly when the string contains no such letter. -/
theorem extract_choice_fallback (s : String) :
    s ≠ "" → boxedChoice (pyStrip s).data = none →
    pickOption (keywordRegion ((pyStrip s).data.map Char.toLower)).1
        (keywordRegion ((pyStrip s).data.map Char.toLower)).2 = none →
    strLen (pyStrip s) < 10 →
    extract_choice s = (s.data.find? isChoiceLetter).map (fun c => String.mk [c.toUpper]) := by
  intro hs hb hp hlen
  unfold extract_choice
  rw [if_neg hs]
  simp only [hb, hp]
  rw [if_pos hlen]

theorem extract_choice_fallback_witness :
    extract_choice ("f: bcd") = (("f: bcd").data.find? isChoiceLetter).map
      (fun c => String.mk [c.toUpper]) :=
  extract_choice_fallback ("f: bcd") (by decide) (by decide) (by decide) (by decide)

end Bake
namespace Bake

/-- Claim C4 (code bug): pool regeneration is *not* gated on iterative mode.
`BakeEngine.run` never reads `config['bake']['iterative']` (the flag set by
`main.py`), so the model of its loop body — faithful to the source — has no
iterative parameter at all: after the tier-1 merge on the second sample the
active pool is replaced by the freshly generated prompts unconditionally. -/
theorem pool_regeneration_unconditional :
    (runLoop demoEngine ["P1"] [demoSample1, demoSample2]).current_prompts
      = ["This is a long prompt line"]
    ∧ (runLoop demoEngine ["P1"] [demoSample1, demoSample2]).current_prompts ≠ ["P1"]
    ∧ (runLoop demoEngine ["P1"] [demoSample1]).current_prompts = ["P1"] := by
  refine ⟨by decide, by decide, by decide⟩

/-- Claim C2 (counterexample): with `group_size = 0` — a configuration value
the source never guards against — the invariant `len(attr) < group_size`
already fails after a sample that is skipped because nothing was wrong
(`attr` stays empty and `0 < 0` is false), while the sample's processing
does complete in the source (the merge loops are not reached). -/
theorem merge_invariant_counterexample :
    ¬ ((runLoop zeroEngine [] [demoSample1]).attr.length < zeroEngine.group_size) := by
  decide

theorem collapseRulesAux_length_lt (o : String → String → String) (m : MetaPrompts)
    (gs : Nat) (hgs : 2 ≤ gs) :
    ∀ fuel l, l.length ≤ fuel + (gs - 1) → (collapseRulesAux o m gs fuel l).length < gs := by
  intro fuel
  induction fuel with
  | zero =>
    intro l hl
    unfold collapseRulesAux
    omega
  | succ n ih =>
    intro l hl
    unfold collapseRulesAux
    split
    · rename_i hcond
      apply ih
      simp only [List.length_cons, List.length_drop]
      omega
    · rename_i hcond
      rw [not_and_or] at hcond
      rcases hcond with h | h
      · exact absurd hgs h
      · omega

theorem collapseRules_length_lt (o : String → String → String) (m : MetaPrompts)
    (gs : Nat) (l : List String) (hgs : 2 ≤ gs) :
    (collapseRules o m gs l).length < gs :=
  collapseRulesAux_length_lt o m gs hgs l.length l (by omega)

theorem merge_branch_fst_length_lt (gs : Nat) (hgs : 0 < gs) (A : List String)
    (t u : List String × List String) :
    (if gs ≤ A.length then (([] : List String), t) else (A, u)).1.length < gs := by
  split
  · simpa using hgs
  · rename_i h
    simpa using Nat.lt_of_not_le h

theorem processSample_preserves_invariant (eng : Engine) (st : RunState) (item : Sample)
    (hgs : 2 ≤ eng.group_size)
    (hattr : st.attr.length < eng.group_size)
    (hall : st.all_rule.length < eng.group_size) :
    (processSample eng st item).attr.length < eng.group_size
    ∧ (processSample eng st item).all_rule.length < eng.group_size := by
  simp only [processSample]
  split
  · exact ⟨hattr, hall⟩
  split
  · exact ⟨hattr, hall⟩
  split
  · exact ⟨hattr, hall⟩
  constructor
  · exact merge_branch_fst_length_lt eng.group_size (by omega) _ _ _
  · exact collapseRules_length_lt _ _ _ _ hgs

/-- Claim C2 (amended): provided `group_size ≥ 2` (for `group_size ≤ 1` the
source's recursive-merge loop does not even terminate once a merge fires,
and for `group_size = 0` the invariant is false outright), after the
processing of each dataset sample completes, both `len(attr) < group_size`
and `len(all_rule) < group_size` hold: `attr` is merged and cleared whenever
it reaches `group_size`, and `all_rule` is repeatedly collapsed until it is
below `group_size`. -/
theorem merge_tree_invariant (eng : Engine) (hgs : 2 ≤ eng.group_size)
    (initial : List String) (dataset : List Sample) (k : Nat) :
    (runLoop eng initial (dataset.take k)).attr.length < eng.group_size
    ∧ (runLoop eng initial (dataset.take k)).all_rule.length < eng.group_size := by
  unfold runLoop
  have main : ∀ (l : List Sample) (st : RunState),
      st.attr.length < eng.group_size → st.all_rule.length < eng.group_size →
      (l.foldl (processSample eng) st).attr.length < eng.group_size
      ∧ (l.foldl (processSample eng) st).all_rule.length < eng.group_size := by
    intro l
    induction l with
    | nil => intro st h1 h2; exact ⟨h1, h2⟩
    | cons x xs ih =>
      intro st h1 h2
      have step := processSample_preserves_invariant eng st x hgs h1 h2
      exact ih (processSample eng st x) step.1 step.2
  exact main (dataset.take k) ⟨initial, [], []⟩ (by simp; omega) (by simp; omega)

theorem merge_tree_invariant_witness :
    (runLoop demoEngine ["P1"] ([demoSample1, demoSample2].take 2)).attr.length
      < demoEngine.group_size
    ∧ (runLoop demoEngine ["P1"] ([demoSample1, demoSample2].take 2)).all_rule.length
      < demoEngine.group_size :=
  merge_tree_invariant demoEngine (by decide) ["P1"] [demoSample1, demoSample2] 2

end Bake
namespace Bake

theorem dictSet_append {α : Type} (d : List (String × α)) (k : String) (v : α)
    (h : ∀ b, (k, b) ∉ d) : dictSet d k v = d ++ [(k, v)] := by
  unfold dictSet
  rw [if_neg]
  intro hc
  rw [List.any_eq_true] at hc
  obtain ⟨kv, hmem, hbeq⟩ := hc
  obtain ⟨k1, v1⟩ := kv
  rw [beq_iff_eq] at hbeq
  subst hbeq
  exact h v1 hmem

theorem mem_dictSet_of_ne {α : Type} (d : List (String × α)) (k q : String) (v b : α)
    (hne : q ≠ k) : ((q, b) ∈ dictSet d k v) ↔ (q, b) ∈ d := by
  unfold dictSet
  split
  · rw [List.mem_map]
    constructor
    · rintro ⟨⟨k1, v1⟩, hmem, hfx⟩
      dsimp only at hfx
      by_cases hk : k1 = k
      · rw [if_pos (by simpa using hk)] at hfx
        have hk1 : k = q := congrArg Prod.fst hfx
        exact absurd hk1.symm hne
      · rw [if_neg (by simpa using hk)] at hfx
        rw [← hfx]
        exact hmem
    · intro hmem
      refine ⟨(q, b), hmem, ?_⟩
      rw [if_neg (by simpa using hne)]
  · rw [List.mem_append, List.mem_singleton, Prod.mk.injEq]
    constructor
    · rintro (h | ⟨rfl, rfl⟩)
      · exact h
      · exact absurd rfl hne
    · exact fun h => Or.inl h

theorem evalStep_eq_none (outc : String → Option (Bool × String)) (acc : EvalResult)
    (x : String) (h : outc x = none) : evalStep outc acc x = acc := by
  unfold evalStep
  rw [h]

theorem evalStep_eq_true (outc : String → Option (Bool × String)) (acc : EvalResult)
    (x raw : String) (h : outc x = some (true, raw)) :
    evalStep outc acc x = ⟨acc.correct ++ [x], acc.wrong,
      dictSet acc.detailed_res x true, acc.failed_outputs⟩ := by
  unfold evalStep
  rw [h]
  rfl

theorem evalStep_eq_false (outc : String → Option (Bool × String)) (acc : EvalResult)
    (x raw : String) (h : outc x = some (false, raw)) :
    evalStep outc acc x = ⟨acc.correct, acc.wrong ++ [x],
      dictSet acc.detailed_res x false, dictSet acc.failed_outputs x raw⟩ := by
  unfold evalStep
  rw [h]
  rfl

theorem evalStep_not_touched (outc : String → Option (Bool × String)) (acc : EvalResult)
    (x p : String) (hcase : p ≠ x ∨ outc p = none)
    (h1 : p ∉ acc.correct) (h2 : p ∉ acc.wrong)
    (h3 : ∀ b, (p, b) ∉ acc.detailed_res) (h4 : ∀ o, (p, o) ∉ acc.failed_outputs) :
    p ∉ (evalStep outc acc x).correct ∧ p ∉ (evalStep outc acc x).wrong
    ∧ (∀ b, (p, b) ∉ (evalStep outc acc x).detailed_res)
    ∧ (∀ o, (p, o) ∉ (evalStep outc acc x).failed_outputs) := by
  cases houtc : outc x with
  | none =>
    rw [evalStep_eq_none outc acc x houtc]
    exact ⟨h1, h2, h3, h4⟩
  | some pr =>
    obtain ⟨ic, raw⟩ := pr
    have hpx : p ≠ x := by
      rcases hcase with h | h
      · exact h
      · intro hc
        subst hc
        rw [h] at houtc
        exact absurd houtc (by simp)
    have hmemapp : p ∉ acc.correct ++ [x] ∧ p ∉ acc.wrong ++ [x] := by
      constructor <;>
      · rw [List.mem_append, List.mem_singleton]
        rintro (h | rfl)
        · first
          | exact h1 h
          | exact h2 h
        · exact hpx rfl
    cases ic with
    | true =>
      rw [evalStep_eq_true outc acc x raw houtc]
      refine ⟨hmemapp.1, h2, ?_, h4⟩
      intro b
      rw [mem_dictSet_of_ne _ _ _ _ _ hpx]
      exact h3 b
    | false =>
      rw [evalStep_eq_false outc acc x raw houtc]
      refine ⟨h1, hmemapp.2, ?_, ?_⟩
      · intro b
        rw [mem_dictSet_of_ne _ _ _ _ _ hpx]
        exact h3 b
      · intro o
        rw [mem_dictSet_of_ne _ _ _ _ _ hpx]
        exact h4 o

theorem evalLoop_not_mem (outc : String → Option (Bool × String)) (l : List String)
    (acc : EvalResult) (p : String) (hp : outc p = none)
    (h1 : p ∉ acc.correct) (h2 : p ∉ acc.wrong)
    (h3 : ∀ b, (p, b) ∉ acc.detailed_res) (h4 : ∀ o, (p, o) ∉ acc.failed_outputs) :
    p ∉ (evalLoop outc l acc).correct ∧ p ∉ (evalLoop outc l acc).wrong
    ∧ (∀ b, (p, b) ∉ (evalLoop outc l acc).detailed_res)
    ∧ (∀ o, (p, o) ∉ (evalLoop outc l acc).failed_outputs) := by
  induction l generalizing acc with
  | nil => exact ⟨h1, h2, h3, h4⟩
  | cons x xs ih =>
    simp only [evalLoop]
    have step := evalStep_not_touched outc acc x p (Or.inr hp) h1 h2 h3 h4
    exact ih (evalStep outc acc x) step.1 step.2.1 step.2.2.1 step.2.2.2

theorem evalStep_count (outc : String → Option (Bool × String)) (acc : EvalResult)
    (q : String) :
    (evalStep outc acc q).correct.length + (evalStep outc acc q).wrong.length
    = acc.correct.length + acc.wrong.length + (if (outc q).isSome then 1 else 0) := by
  cases houtc : outc q with
  | none =>
    rw [evalStep_eq_none outc acc q houtc]
    simp
  | some pr =>
    obtain ⟨ic, raw⟩ := pr
    cases ic with
    | true =>
      rw [evalStep_eq_true outc acc q raw houtc]
      simp
      omega
    | false =>
      rw [evalStep_eq_false outc acc q raw houtc]
      simp
      omega

theorem evalLoop_count (outc : String → Option (Bool × String)) (l : List String) :
    ∀ acc : EvalResult,
    (evalLoop outc l acc).correct.length + (evalLoop outc l acc).wrong.length
    = acc.correct.length + acc.wrong.length + l.countP (fun p => (outc p).isSome) := by
  induction l with
  | nil =>
    intro acc
    simp [evalLoop]
  | cons x xs ih =>
    intro acc
    simp only [evalLoop]
    rw [ih, evalStep_count, List.countP_cons]
    by_cases h : (outc x).isSome <;> simp [h] <;> omega

/-- Claim C1: a prompt whose scorer call raises on all `max_retries`
attempts appears in none of the four results of `evaluate_parallel`
(`correct`, `wrong`, `detailed_res`, `failed_outputs`); consequently
`|correct| + |wrong| ≤ |prompts|`, with equality iff no prompt exhausted its
retries. -/
theorem evaluate_parallel_drops_exhausted (scorer : String → Nat → Option String)
    (max_retries : Nat) (query answer_gt task_type : String) (prompts : List String) :
    (∀ p ∈ prompts, worker scorer max_retries query answer_gt task_type p = none →
        p ∉ (evaluate_parallel scorer max_retries query answer_gt prompts task_type).correct
        ∧ p ∉ (evaluate_parallel scorer max_retries query answer_gt prompts task_type).wrong
        ∧ (∀ b, (p, b) ∉ (evaluate_parallel scorer max_retries query answer_gt prompts
            task_type).detailed_res)
        ∧ (∀ o, (p, o) ∉ (evaluate_parallel scorer max_retries query answer_gt prompts
            task_type).failed_outputs))
    ∧ (evaluate_parallel scorer max_retries query answer_gt prompts task_type).correct.length
        + (evaluate_parallel scorer max_retries query answer_gt prompts
            task_type).wrong.length ≤ prompts.length
    ∧ ((evaluate_parallel scorer max_retries query answer_gt prompts task_type).correct.length
        + (evaluate_parallel scorer max_retries query answer_gt prompts
            task_type).wrong.length = prompts.length
        ↔ ∀ p ∈ prompts, worker scorer max_retries query answer_gt task_type p ≠ none) := by
  have hcount := evalLoop_count (worker scorer max_retries query answer_gt task_type) prompts
    ⟨[], [], [], []⟩
  simp only [List.length_nil, Nat.zero_add] at hcount
  refine ⟨?_, ?_, ?_⟩
  · intro p hmem hnone
    exact evalLoop_not_mem _ prompts _ p hnone (by simp) (by simp) (by simp) (by simp)
  · unfold evaluate_parallel
    rw [hcount]
    exact List.countP_le_length _
  · unfold evaluate_parallel
    rw [hcount]
    rw [List.countP_eq_length]
    constructor
    · intro h p hp
      have h2 := h p hp
      rw [Option.isSome_iff_ne_none] at h2
      exact h2
    · intro h p hp
      rw [Option.isSome_iff_ne_none]
      exact h p hp

theorem evaluate_parallel_drops_exhausted_witness :
    ("P" ∉ (evaluate_parallel failScorer 3 ("Q1") ("4") ["P"] ("math")).correct)
    ∧ ("P" ∉ (evaluate_parallel failScorer 3 ("Q1") ("4") ["P"] ("math")).wrong)
    ∧ (∀ b, (("P"), b) ∉ (evaluate_parallel failScorer 3 ("Q1") ("4") ["P"]
        ("math")).detailed_res)
    ∧ (∀ o, (("P"), o) ∉ (evaluate_parallel failScorer 3 ("Q1") ("4") ["P"]
        ("math")).failed_outputs) :=
  (evaluate_parallel_drops_exhausted failScorer 3 ("Q1") ("4") ("math") ["P"]).1 ("P")
    (by decide) (by decide)

end Bake
namespace Bake

theorem evalStep_inv (outc : String → Option (Bool × String)) (acc : EvalResult)
    (q : String) (hf1 : q ∉ acc.correct) (hf2 : q ∉ acc.wrong)
    (hf3 : ∀ b, (q, b) ∉ acc.detailed_res) (hf4 : ∀ o, (q, o) ∉ acc.failed_outputs)
    (hI : EvalInv outc acc) : EvalInv outc (evalStep outc acc q) := by
  obtain ⟨hI1, hI2, hI3, hI4⟩ := hI
  cases houtc : outc q with
  | none =>
    rw [evalStep_eq_none outc acc q houtc]
    exact ⟨hI1, hI2, hI3, hI4⟩
  | some pr =>
    obtain ⟨ic, raw⟩ := pr
    cases ic with
    | true =>
      rw [evalStep_eq_true outc acc q raw houtc, dictSet_append _ _ _ hf3]
      unfold EvalInv
      dsimp only
      refine ⟨?_, hI2, ?_, hI4⟩
      · intro p hp
        rw [List.mem_append, List.mem_singleton] at hp
        rcases hp with h | rfl
        · exact hI1 p h
        · exact ⟨raw, houtc⟩
      · intro p b
        rw [List.mem_append, List.mem_singleton, Prod.mk.injEq, hI3 p b,
          List.mem_append, List.mem_singleton]
        tauto
    | false =>
      rw [evalStep_eq_false outc acc q raw houtc, dictSet_append _ _ _ hf3,
        dictSet_append _ _ _ hf4]
      unfold EvalInv
      dsimp only
      refine ⟨hI1, ?_, ?_, ?_⟩
      · intro p hp
        rw [List.mem_append, List.mem_singleton] at hp
        rcases hp with h | rfl
        · exact hI2 p h
        · exact ⟨raw, houtc⟩
      · intro p b
        rw [List.mem_append, List.mem_singleton, Prod.mk.injEq, hI3 p b,
          List.mem_append, List.mem_singleton]
        tauto
      · intro p
        rw [List.mem_append, List.mem_singleton]
        constructor
        · rintro ⟨o, ho⟩
          rw [List.mem_append, List.mem_singleton, Prod.mk.injEq] at ho
          rcases ho with h | ⟨rfl, rfl⟩
          · exact Or.inl ((hI4 p).mp ⟨o, h⟩)
          · exact Or.inr rfl
        · rintro (h | rfl)
          · obtain ⟨o, ho⟩ := (hI4 p).mpr h
            refine ⟨o, ?_⟩
            rw [List.mem_append]
            exact Or.inl ho
          · refine ⟨raw, ?_⟩
            rw [List.mem_append, List.mem_singleton]
            exact Or.inr rfl

theorem evalLoop_inv (outc : String → Option (Bool × String)) (l : List String) :
    ∀ acc : EvalResult, l.Nodup →
    (∀ p ∈ l, p ∉ acc.correct ∧ p ∉ acc.wrong
      ∧ (∀ b, (p, b) ∉ acc.detailed_res) ∧ (∀ o, (p, o) ∉ acc.failed_outputs)) →
    EvalInv outc acc → EvalInv outc (evalLoop outc l acc) := by
  induction l with
  | nil =>
    intro acc hnd hfresh hI
    exact hI
  | cons x xs ih =>
    intro acc hnd hfresh hI
    simp only [evalLoop]
    obtain ⟨hx1, hx2, hx3, hx4⟩ := hfresh x (by simp)
    refine ih (evalStep outc acc x) (List.Nodup.of_cons hnd) ?_
      (evalStep_inv outc acc x hx1 hx2 hx3 hx4 hI)
    intro p hp
    have hpx : p ≠ x := by
      intro hc
      subst hc
      exact (List.nodup_cons.mp hnd).1 hp
    obtain ⟨hp1, hp2, hp3, hp4⟩ := hfresh p (List.mem_cons_of_mem x hp)
    exact evalStep_not_touched outc acc x p (Or.inl hpx) hp1 hp2 hp3 hp4

/-- Claim C10: for pairwise-distinct prompts, the key set of the per-prompt
result map equals the (disjoint) union of `correct` and `wrong`, the map
sends a prompt to `true` iff it is in `correct`, and the key set of
`failed_outputs` is exactly `wrong` — so every incorrect prompt has its raw
output recorded and no correct or dropped prompt does. -/
theorem evaluate_parallel_result_maps (scorer : String → Nat → Option String)
    (max_retries : Nat) (query answer_gt task_type : String) (prompts : List String)
    (hnd : prompts.Nodup) :
    (∀ p, (∃ b, (p, b) ∈ (evaluate_parallel scorer max_retries query answer_gt prompts
          task_type).detailed_res)
        ↔ (p ∈ (evaluate_parallel scorer max_retries query answer_gt prompts
            task_type).correct
          ∨ p ∈ (evaluate_parallel scorer max_retries query answer_gt prompts
            task_type).wrong))
    ∧ (∀ p, ¬ (p ∈ (evaluate_parallel scorer max_retries query answer_gt prompts
          task_type).correct
        ∧ p ∈ (evaluate_parallel scorer max_retries query answer_gt prompts
          task_type).wrong))
    ∧ (∀ p, ((p, true) ∈ (evaluate_parallel scorer max_retries query answer_gt prompts
          task_type).detailed_res
        ↔ p ∈ (evaluate_parallel scorer max_retries query answer_gt prompts
          task_type).correct))
    ∧ (∀ p, (∃ o, (p, o) ∈ (evaluate_parallel scorer max_retries query answer_gt prompts
          task_type).failed_outputs)
        ↔ p ∈ (evaluate_parallel scorer max_retries query answer_gt prompts
          task_type).wrong) := by
  have hinv : EvalInv (worker scorer max_retries query answer_gt task_type)
      (evaluate_parallel scorer max_retries query answer_gt prompts task_type) := by
    unfold evaluate_parallel
    refine evalLoop_inv _ prompts _ hnd ?_ ?_
    · intro p hp
      exact ⟨by simp, by simp, by simp, by simp⟩
    · refine ⟨by simp, by simp, ?_, ?_⟩
      · intro p b
        simp
      · intro p
        simp
  obtain ⟨h1, h2, h3, h4⟩ := hinv
  refine ⟨?_, ?_, ?_, ?_⟩
  · intro p
    constructor
    · rintro ⟨b, hb⟩
      rcases (h3 p b).mp hb with ⟨hc, hb2⟩ | ⟨hw, hb2⟩
      · exact Or.inl hc
      · exact Or.inr hw
    · rintro (hc | hw)
      · exact ⟨true, (h3 p true).mpr (Or.inl ⟨hc, rfl⟩)⟩
      · exact ⟨false, (h3 p false).mpr (Or.inr ⟨hw, rfl⟩)⟩
  · rintro p ⟨hc, hw⟩
    obtain ⟨r1, hr1⟩ := h1 p hc
    obtain ⟨r2, hr2⟩ := h2 p hw
    rw [hr1] at hr2
    simp at hr2
  · intro p
    constructor
    · intro hb
      rcases (h3 p true).mp hb with ⟨hc, hb2⟩ | ⟨hw, hfalse⟩
      · exact hc
      · exact absurd hfalse (by simp)
    · intro hc
      exact (h3 p true).mpr (Or.inl ⟨hc, rfl⟩)
  · exact h4

theorem evaluate_parallel_result_maps_witness :
    (("P1"), true) ∈ (evaluate_parallel demoScorer 1 ("Q1") ("4") ["P1", "PX"]
        ("math")).detailed_res
      ↔ ("P1") ∈ (evaluate_parallel demoScorer 1 ("Q1") ("4") ["P1", "PX"]
        ("math")).correct :=
  (evaluate_parallel_result_maps demoScorer 1 ("Q1") ("4") ("math") ["P1", "PX"]
    (by decide)).2.2.1 ("P1")

theorem range_map_getD_eq_zip {α β : Type} (dx : α) (dy : β) (xs : List α) (ys : List β) :
    (List.range (min xs.length ys.length)).map (fun i => (xs.getD i dx, ys.getD i dy))
    = xs.zip ys := by
  induction xs generalizing ys with
  | nil => simp
  | cons x xs ih =>
    cases ys with
    | nil => simp
    | cons y ys =>
      rw [List.zip_cons_cons, ← ih ys]
      rw [List.length_cons, List.length_cons, Nat.succ_min_succ, List.range_succ_eq_map]
      rw [List.map_cons, List.map_map]
      congr 1

/-- Claim C8: `refine` returns exactly the positional pairing of the `i`-th
incorrect prompt with the `i`-th extracted rewrite, truncated to the shorter
of the two lists; it is empty when `wrong` is empty (independently of the
generation collaborator, which is never called) and empty when zero rewrites
are extracted from the single generation response. -/
theorem refine_pairs_spec (optimizer : String → String → String) (meta : MetaPrompts)
    (correct wrong : List String) (question answer_gt : String)
    (failed_outputs : List (String × String)) :
    (wrong ≠ [] → refine optimizer meta correct wrong question answer_gt failed_outputs
        = wrong.zip (extract_tags (optimizer
            (pyFormatKey meta.analyze_and_rewrite ("num") (toString wrong.length))
            (refine_user_msg correct wrong question answer_gt failed_outputs)) ("REWRITE")))
    ∧ (wrong = [] → ∀ optimizer2 : String → String → String,
        refine optimizer2 meta correct wrong question answer_gt failed_outputs = [])
    ∧ (refine optimizer meta correct wrong question answer_gt failed_outputs).length
        = min wrong.length (extract_tags (optimizer
            (pyFormatKey meta.analyze_and_rewrite ("num") (toString wrong.length))
            (refine_user_msg correct wrong question answer_gt failed_outputs))
            ("REWRITE")).length
    ∧ (extract_tags (optimizer
          (pyFormatKey meta.analyze_and_rewrite ("num") (toString wrong.length))
          (refine_user_msg correct wrong question answer_gt failed_outputs)) ("REWRITE") = []
        → refine optimizer meta correct wrong question answer_gt failed_outputs = []) := by
  have hmain : wrong ≠ [] →
      refine optimizer meta correct wrong question answer_gt failed_outputs
      = wrong.zip (extract_tags (optimizer
          (pyFormatKey meta.analyze_and_rewrite ("num") (toString wrong.length))
          (refine_user_msg correct wrong question answer_gt failed_outputs)) ("REWRITE")) := by
    intro hw
    unfold refine
    rw [if_neg (by simpa using hw)]
    exact range_map_getD_eq_zip ("") ("") wrong _
  refine ⟨hmain, ?_, ?_, ?_⟩
  · intro hw optimizer2
    subst hw
    rfl
  · by_cases hw : wrong = []
    · subst hw
      simp [refine]
    · rw [hmain hw, List.length_zip]
  · intro hext
    by_cases hw : wrong = []
    · subst hw
      rfl
    · rw [hmain hw, hext, List.zip_nil_right]

theorem refine_pairs_spec_witness :
    refine demoOptimizer demoMeta [] [] ("q") ("g") [] = [] :=
  (refine_pairs_spec demoOptimizer demoMeta [] [] ("q") ("g") []).2.1 rfl demoOptimizer

/-- Claim C3: a candidate pair is promoted iff its candidate prompt appears
in the `correct` set of re-running `evaluate_parallel` on the same sample
with exactly the candidate prompts as the pool; pairs whose candidate is
incorrect or yields no result are discarded; and when zero pairs verify
(`extract_rule` of an empty pair list is the empty rule), the sample
contributes nothing: the driver state is left unchanged. -/
theorem verification_gate (eng : Engine) (q a t_type : String)
    (candidate_pairs : List (String × String)) (pr : String × String)
    (optimizer : String → String → String) (meta : MetaPrompts)
    (correct : List String) (st : RunState) (item : Sample) :
    (pr ∈ verifyPairs eng q a t_type candidate_pairs
      ↔ pr ∈ candidate_pairs ∧ pr.2 ∈ (evaluate_parallel eng.scorer eng.max_retries q a
          (candidate_pairs.map Prod.snd) t_type).correct)
    ∧ extract_rule optimizer meta correct [] = ""
    ∧ (verifyPairs eng item.question item.answer item.type
        (refine eng.optimizer eng.meta
          (evaluate_parallel eng.scorer eng.max_retries item.question item.answer
            st.current_prompts item.type).correct
          (evaluate_parallel eng.scorer eng.max_retries item.question item.answer
            st.current_prompts item.type).wrong
          item.question item.answer
          (evaluate_parallel eng.scorer eng.max_retries item.question item.answer
            st.current_prompts item.type).failed_outputs) = []
      → processSample eng st item = st) := by
  refine ⟨?_, rfl, ?_⟩
  · unfold verifyPairs
    rw [List.mem_filter]
    constructor
    · rintro ⟨hmem, hc⟩
      refine ⟨hmem, ?_⟩
      simpa using hc
    · rintro ⟨hmem, hc⟩
      refine ⟨hmem, ?_⟩
      simpa using hc
  · intro hv
    simp only [processSample]
    split
    · rfl
    split
    · rfl
    split
    · rfl
    rename_i h1 h2 h3
    refine absurd ?_ h3
    rw [hv]
    rfl

theorem verification_gate_witness :
    processSample demoEngine ⟨["P1"], [], []⟩ demoSample3 = ⟨["P1"], [], []⟩ :=
  (verification_gate demoEngine ("q") ("a") ("t") [] (("x", "y")) demoOptimizer demoMeta []
    ⟨["P1"], [], []⟩ demoSample3).2.2 (by decide)

end Bake
